import Mathlib

/-!
Verification of the tabular-input normalizer of `src/app1a.py`
(Enterprise_Scorecard).  The Python code is shallowly embedded:

* spreadsheet cells become the inductive type `Cell` (pandas NaN is
  `Cell.blank`; numbers are modelled as exact rationals, which is faithful
  here because the code never does arithmetic on cell values, it only
  passes them through, compares them and re-emits them);
* pandas DataFrame rows become Lean structures whose fields are the cells
  of the named columns the code reads (column resolution by name is done
  by pandas and is modelled as already performed);
* Python functions that can raise become `Except String`-valued functions,
  and the top-level try/except of `read_excel_data` becomes `Except.toOption`.

Python's `str.strip` is modelled by `pyStrip`, `str.lower` by `pyLower`,
and the substring test `a in b` by `strHasSub b a`.
-/

deriving instance DecidableEq for Except

namespace Scorecard

/-- The whitespace characters removed by Python's `str.strip`. -/
def pyIsSpace (c : Char) : Bool :=
  c == ' ' || c == '\t' || c == '\n' || c == '\r' || c == '\x0b' || c == '\x0c'

/-- Models Python `s.strip()`. -/
def pyStrip (s : String) : String :=
  String.mk (((s.data.dropWhile pyIsSpace).reverse.dropWhile pyIsSpace).reverse)

/-- Models Python `s.lower()` (the source only lowercases ASCII labels). -/
def pyLower (s : String) : String :=
  String.mk (s.data.map Char.toLower)

/-- Does the character list `hay` start with `pat`? (helper for the
substring test). -/
def charsStartWith : List Char → List Char → Bool
  | _, [] => true
  | [], _ :: _ => false
  | c :: cs, p :: ps => c == p && charsStartWith cs ps

/-- Does `pat` occur contiguously inside `hay`?  Models Python's
`pat in hay` on strings. -/
def charsHasSub : List Char → List Char → Bool
  | [], pat => pat.isEmpty
  | c :: cs, pat => charsStartWith (c :: cs) pat || charsHasSub cs pat

/-- Python `pat in hay` for strings. -/
def strHasSub (hay pat : String) : Bool :=
  charsHasSub hay.data pat.data

/-- A spreadsheet cell as pandas hands it to the Python code: missing
(NaN/None), a string, a number (int or float, modelled exactly as a
rational), or a boolean. -/
inductive Cell where
  | blank
  | str (s : String)
  | num (q : ℚ)
  | bool (b : Bool)
deriving DecidableEq, Repr

/-- Models `pd.notna` on a cell. -/
def notna : Cell → Bool
  | Cell.blank => false
  | _ => true

/-- Rendering of a rational the way Python renders numbers with `str`.
For integers this agrees with Python exactly; for non-integral values the
source never relies on the precise digits (every use is guarded by
emptiness / equality-with-a-keyword tests that no numeric rendering can
satisfy), so an exact-fraction rendering is used. -/
def numStr (q : ℚ) : String :=
  if q.den = 1 then toString q.num else toString q.num ++ "/" ++ toString q.den

/-- Models Python `str(value)` on a cell (`str(nan) = "nan"`,
`str(True) = "True"`). -/
def pyStr : Cell → String
  | Cell.blank => "nan"
  | Cell.str s => s
  | Cell.num q => numStr q
  | Cell.bool b => if b then "True" else "False"

/-- Models the ubiquitous source pattern
`str(row[col]).strip() if pd.notna(row[col]) else ""`. -/
def pyStrField (c : Cell) : String :=
  if notna c then pyStrip (pyStr c) else ""

/-- Is the character a digit or a dot (the character class `[\d.]` of the
regex in `extract_number`)? -/
def isDigDot (c : Char) : Bool :=
  c.isDigit || c == '.'

/-- Models `re.search(r'([\d.]+)', s)`: the first maximal run of
digit-or-dot characters, if any. -/
def firstRun : List Char → Option (List Char)
  | [] => none
  | c :: cs =>
      if isDigDot c then some (c :: cs.takeWhile isDigDot)
      else firstRun cs

/-- Value of a list of digit characters read in base 10. -/
def digitsVal (cs : List Char) : ℕ :=
  cs.foldl (fun a c => a * 10 + (c.toNat - 48)) 0

/-- Models Python `float` applied to a string made only of digits and
dots (the shape `re.search(r'([\d.]+)')` can produce): defined iff there
is at most one dot and at least one digit. -/
def ratOfRun (cs : List Char) : Option ℚ :=
  let ip := cs.takeWhile Char.isDigit
  let rest := cs.drop ip.length
  match rest with
  | [] => if ip.isEmpty then none else some (digitsVal ip)
  | '.' :: frac =>
      if frac.all Char.isDigit && !(ip.isEmpty && frac.isEmpty) then
        some ((digitsVal ip : ℚ) + (digitsVal frac : ℚ) / 10 ^ frac.length)
      else none
  | _ => none

/-- Models Python `float(s)` on a general string: strip, optional sign,
then a plain decimal numeral.  (Exponent and inf/nan spellings, which the
source never feeds to this path, are outside the modelled subset.) -/
def pyFloat (s : String) : Option ℚ :=
  match (pyStrip s).data with
  | '-' :: body => (ratOfRun body).map (fun q => -q)
  | '+' :: body => ratOfRun body
  | body => ratOfRun body

/-- Faithful embedding of `extract_number` (src/app1a.py lines
1349-1385).  `none` models the Python return value `None`; `some c`
models returning the (possibly transformed) value `c`. -/
def extract_number (value : Cell) : Option Cell :=
  match value with
  | Cell.blank => none
  | Cell.str s =>
      if s = "" then none
      else if strHasSub (pyStrip s) "%" then
        match firstRun (pyStrip s).data with
        | some run =>
            match ratOfRun run with
            | some q => some (Cell.num q)
            | none => some (Cell.str s)
        | none => some (Cell.str s)
      else
        match pyFloat (pyStrip s) with
        | some q => some (Cell.num q)
        | none => none
  | Cell.num q => some (Cell.num q)
  | Cell.bool b => some (Cell.bool b)

/-! ## `read_excel_data` (src/app1a.py lines 398-610) -/

/-- The normalized output record; `order` is carried only by the
grouping layout. -/
structure Record where
  measure_group : String
  standard_kpis : String
  measure_display_name : String
  definition : String
  order : Option Int
deriving DecidableEq, Repr

/-- Is the character list a non-empty all-digits run? -/
def digitsOnly (cs : List Char) : Bool :=
  !cs.isEmpty && cs.all Char.isDigit

/-- Models Python `int(s)` on a string: strip, optional sign, then a
non-empty digit run; anything else raises. -/
def pyIntStr (s : String) : Except String Int :=
  match (pyStrip s).data with
  | '-' :: body =>
      if digitsOnly body then Except.ok (-(digitsVal body : Int))
      else Except.error ("invalid literal for int: " ++ s)
  | '+' :: body =>
      if digitsOnly body then Except.ok (digitsVal body)
      else Except.error ("invalid literal for int: " ++ s)
  | body =>
      if digitsOnly body then Except.ok (digitsVal body)
      else Except.error ("invalid literal for int: " ++ s)

/-- Truncation toward zero, as Python `int` applied to a float. -/
def truncRat (q : ℚ) : Int :=
  if q < 0 then -((-q).floor) else q.floor

/-- Models Python `int(value)` on a cell value; `int(nan)` raises. -/
def pyIntCell : Cell → Except String Int
  | Cell.blank => Except.error "cannot convert float NaN to integer"
  | Cell.str s => pyIntStr s
  | Cell.num q => Except.ok (truncRat q)
  | Cell.bool b => Except.ok (if b then 1 else 0)

/-- One data row of the grouping ("Lego Brazil") layout, with the cells
of the columns the source reads (src/app1a.py lines 483-514). -/
structure GroupRow where
  groupingName : Cell
  clientName : Cell
  internalName : Cell
  notes : Cell
  measureOrder : Cell
deriving DecidableEq, Repr

/-- Projection of one grouping-layout row (src/app1a.py lines 483-514).
`idx` is the pandas row index (0-based).  The source computes the order
value, which can raise, before the blank-group skip test, so a bad order
cell fails even on a row that would be skipped. -/
def processGroupRow (idx : ℕ) (r : GroupRow) : Except String (Option Record) := do
  let grouping_name := pyStrField r.groupingName
  let client_name := pyStrField r.clientName
  let internal_name := pyStrField r.internalName
  let notes := pyStrField r.notes
  let measure_order ←
    if notna r.measureOrder then pyIntCell r.measureOrder
    else Except.ok ((idx : Int) + 1)
  if grouping_name = "" ∨ grouping_name = "nan" then
    pure none
  else
    let measure_display_name :=
      if client_name ≠ "" ∧ client_name ≠ "nan" then client_name else internal_name
    pure (some
      { measure_group := grouping_name
        standard_kpis := internal_name
        measure_display_name := measure_display_name
        definition := notes
        order := some measure_order })

/-- The row loop of the grouping layout: rows in order, the first raised
exception aborts the whole read. -/
def processGroupRows : ℕ → List GroupRow → Except String (List Record)
  | _, [] => Except.ok []
  | idx, r :: rs => do
      let o ← processGroupRow idx r
      let rest ← processGroupRows (idx + 1) rs
      match o with
      | some r0 => pure (r0 :: rest)
      | none => pure rest

/-- One data row of the selection-flag ("new Enterprise") layout
(src/app1a.py lines 517-566). -/
structure SelRow where
  selection : Cell
  measureGroup : Cell
  measureName : Cell
  displayName : Cell
  definitions : Cell
deriving DecidableEq, Repr

/-- Is the cell a string cell? -/
def cellIsStr : Cell → Bool
  | Cell.str _ => true
  | _ => false

/-- Is the cell a numeric cell? -/
def cellIsNum : Cell → Bool
  | Cell.num _ => true
  | _ => false

/-- Is the cell a boolean cell? -/
def cellIsBool : Cell → Bool
  | Cell.bool _ => true
  | _ => false

/-- Is the cell missing? -/
def cellIsBlank : Cell → Bool
  | Cell.blank => true
  | _ => false

/-- Whether the selection column's pandas dtype is `object` at the
dtype test of src/app1a.py line 528, after `fillna(False)` at line 525.
A column read by pandas is `object` when it holds any string or mixes
booleans with numbers; a purely boolean column is dtype `bool` and a
purely numeric one `int64`/`float64` — but any NaN makes the fill value
False sit next to non-bools, upcasting the filled column to `object`
(a bool column cannot hold NaN in the first place). -/
def selColObject (col : List Cell) : Bool :=
  col.any cellIsStr || col.any cellIsBlank
    || (col.any cellIsBool && col.any cellIsNum)

/-- Per-cell normalization of an `object`-dtype selection column
(src/app1a.py lines 525 and 529-531, identical at 1288 and 1292-1294):
NaN was filled with False; the cell is stringified, stripped and
lowercased, and only the string "true" maps to True (everything
unmapped becomes False; a boolean stringifies to "True"/"False" and so
maps back to itself). -/
def selNormalizeObj : Cell → Bool
  | Cell.blank => false
  | Cell.bool b => b
  | c => pyLower (pyStrip (pyStr c)) == "true"

/-- The selection filter of src/app1a.py lines 525-534 (identical at
1288-1298) for one cell, given the whole column `col` (the dtype
dispatch at line 528 is per column, not per cell): an `object` column
goes through the string normalization; otherwise line 534's
`== True` compares directly — a boolean column keeps True cells and a
numeric column keeps the cells equal to 1, since `1 == True` holds
elementwise in pandas. -/
def selKeep (col : List Cell) (c : Cell) : Bool :=
  if selColObject col then selNormalizeObj c
  else
    match c with
    | Cell.bool b => b
    | Cell.num q => q == 1
    | _ => false

/-- The record built from a kept selection-layout row
(src/app1a.py lines 544-564). -/
def recOfSel (r : SelRow) : Record :=
  let measure_group := pyStrField r.measureGroup
  let measure_name := pyStrField r.measureName
  let display_name := pyStrField r.displayName
  let definition := pyStrField r.definitions
  let measure_display_name :=
    if display_name ≠ "" ∧ display_name ≠ "nan" then display_name else measure_name
  { measure_group := measure_group
    standard_kpis := measure_name
    measure_display_name := measure_display_name
    definition := definition
    order := none }

/-- The blank-group skip test of the selection layout
(src/app1a.py lines 555-557). -/
def selGroupOk (r : SelRow) : Bool :=
  let g := pyStrField r.measureGroup
  !(g == "" || g == "nan")

/-- The row loop of the selection layout for a fixed keep predicate:
rows passing the filter and the blank-group test become records
(src/app1a.py lines 533-566). -/
def processSelRowsAux (keep : Cell → Bool) : List SelRow → List Record
  | [] => []
  | r :: rs =>
      if keep r.selection then
        if selGroupOk r then recOfSel r :: processSelRowsAux keep rs
        else processSelRowsAux keep rs
      else processSelRowsAux keep rs

/-- The selection layout (src/app1a.py lines 517-566): normalize and
filter the selection column — whose treatment depends on the whole
column's dtype — then drop blank-group rows while building records. -/
def processSelRows (rows : List SelRow) : List Record :=
  processSelRowsAux (selKeep (rows.map SelRow.selection)) rows

/-- One data row of the plain layout when the named columns were
detected (src/app1a.py lines 572-576). -/
structure PlainRowN where
  mg : Cell
  kpis : Cell
  disp : Cell
  defn : Cell
deriving DecidableEq, Repr

/-- Record from a named plain-layout row. -/
def recOfPlainN (r : PlainRowN) : Record :=
  { measure_group := pyStrField r.mg
    standard_kpis := pyStrField r.kpis
    measure_display_name := pyStrField r.disp
    definition := pyStrField r.defn
    order := none }

/-- Blank-group skip test of the plain layout (lines 594-596). -/
def plainNGroupOk (r : PlainRowN) : Bool :=
  let g := pyStrField r.mg
  !(g == "" || g == "nan")

/-- The named plain layout row loop (src/app1a.py lines 569-605). -/
def processPlainN : List PlainRowN → List Record
  | [] => []
  | r :: rs =>
      if plainNGroupOk r then recOfPlainN r :: processPlainN rs
      else processPlainN rs

/-- Models `str(row.iloc[k]).strip() if len(row) > k and
pd.notna(row.iloc[k]) else ""` (src/app1a.py lines 583-592). -/
def cellAt (row : List Cell) (k : ℕ) : String :=
  match row.get? k with
  | some c => pyStrField c
  | none => ""

/-- `first_col_val` (src/app1a.py line 580). -/
def firstColVal (row : List Cell) : String :=
  match row.get? 0 with
  | some c => if notna c then pyLower (pyStrip (pyStr c)) else ""
  | none => ""

/-- The shift-right test of the positional plain layout
(src/app1a.py line 581). -/
def plainShift (row : List Cell) : Bool :=
  let f := firstColVal row
  f == "nan" || f == "" || f == "#ref!" || strHasSub f "unnamed"

/-- Record from a positional plain-layout row, shifted by one column
when the first cell looks like a header artifact
(src/app1a.py lines 578-592). -/
def recOfPlainPos (row : List Cell) : Record :=
  if plainShift row then
    { measure_group := cellAt row 1
      standard_kpis := cellAt row 2
      measure_display_name := cellAt row 3
      definition := cellAt row 4
      order := none }
  else
    { measure_group := cellAt row 0
      standard_kpis := cellAt row 1
      measure_display_name := cellAt row 2
      definition := cellAt row 3
      order := none }

/-- The positional plain layout row loop (src/app1a.py lines 569-605). -/
def processPlainPos : List (List Cell) → List Record
  | [] => []
  | row :: rs =>
      let r0 := recOfPlainPos row
      if r0.measure_group = "" ∨ r0.measure_group = "nan" then processPlainPos rs
      else r0 :: processPlainPos rs

/-- The input of `read_excel_data` after pandas has read the sheet and
the source has dispatched on the marker columns: the grouping layout
(`Grouping Name` present), the selection layout (`Scorecard Measure
Selection/Add Measure` present), or the plain layout with either named
or positional columns. -/
inductive SheetData where
  | grouping (rows : List GroupRow)
  | selection (rows : List SelRow)
  | plainNamed (rows : List PlainRowN)
  | plainPos (rows : List (List Cell))
deriving DecidableEq, Repr

/-- The body of `read_excel_data` (src/app1a.py lines 422-605):
dispatch on the layout and build the record list; a raised Python
exception is an `Except.error`. -/
def readExcelDataE : SheetData → Except String (List Record)
  | SheetData.grouping rows => processGroupRows 0 rows
  | SheetData.selection rows => Except.ok (processSelRows rows)
  | SheetData.plainNamed rows => Except.ok (processPlainN rows)
  | SheetData.plainPos rows => Except.ok (processPlainPos rows)

/-- `read_excel_data` itself: the whole body runs under
`try/except Exception`, which turns any raised exception into the return
value `None` (src/app1a.py lines 606-610). -/
def read_excel_data (d : SheetData) : Option (List Record) :=
  match readExcelDataE d with
  | Except.ok rs => some rs
  | Except.error _ => none

/-! ## Header-row detection of `process_weights_targets_file`
(src/app1a.py lines 1199-1269) -/

/-- One keyword group of the `column_patterns` table. -/
structure KwPat where
  keywords : List String
  wt : Int
  maxLen : ℕ
deriving DecidableEq, Repr

/-- The `column_patterns` table (src/app1a.py lines 1205-1213). -/
def column_patterns : List KwPat :=
  [⟨["target"], 3, 30⟩,
   ⟨["weight", "weig"], 3, 30⟩,
   ⟨["metric name", "measure name"], 2, 30⟩,
   ⟨["display name"], 2, 30⟩,
   ⟨["retailer"], 1, 30⟩,
   ⟨["measure group", "grouping name"], 1, 30⟩,
   ⟨["selection", "add measure"], 1, 50⟩]

/-- `row_values` (src/app1a.py line 1217): each cell stringified and
stripped, NaN as "". -/
def rowValues (row : List Cell) : List String :=
  row.map pyStrField

/-- `row_lower` (src/app1a.py line 1218). -/
def rowLowerVals (row : List Cell) : List String :=
  row.map (fun c => if notna c then pyLower (pyStrip (pyStr c)) else "")

/-- Does one (lowercased) cell count for a keyword group: its length is
at most the group's cap and it contains one of the keywords
(src/app1a.py lines 1238-1240). -/
def cellMatchesPat (p : KwPat) (val : String) : Bool :=
  val.length ≤ p.maxLen && p.keywords.any (fun k => strHasSub val k)

/-- The inner scoring loop over the row's cells for one keyword group
(src/app1a.py lines 1237-1243).  The `break` in the source exits only
the innermost keyword loop, so the group's weight is added once per
matching cell. -/
def patScore (p : KwPat) (rowLow : List String) : Int :=
  rowLow.foldl (fun a val => if cellMatchesPat p val then a + p.wt else a) 0

/-- The scoring loop over all keyword groups (src/app1a.py lines
1233-1243). -/
def keywordScore (row : List Cell) : Int :=
  column_patterns.foldl (fun a p => a + patScore p (rowLowerVals row)) 0

/-- The +2 bonus for at least 4 short non-empty cells (lines 1246-1248). -/
def shortBonus (row : List Cell) : Int :=
  if 4 ≤ ((rowValues row).filter (fun v => v.length < 30 && v != "")).length then 2
  else 0

/-- The -5 penalty when more than 70% of the cells are empty (lines
1250-1253); the float comparison is modelled exactly on rationals. -/
def emptyPenalty (row : List Cell) : Int :=
  let vals := rowValues row
  let empties := (vals.filter (fun v => v == "")).length
  if 7 * max vals.length 1 < 10 * empties then 5 else 0

/-- Total score of a candidate header row (src/app1a.py lines 1232-1253). -/
def rowScore (row : List Cell) : Int :=
  keywordScore row + shortBonus row - emptyPenalty row

/-- The skip tests (src/app1a.py lines 1220-1230): fewer than 3
non-empty cells, or more than 2 cells longer than 50 characters. -/
def skipHeaderRow (row : List Cell) : Bool :=
  ((rowValues row).filter (fun v => v != "")).length < 3
    || 2 < ((rowValues row).filter (fun v => 50 < v.length)).length

/-- The best-candidate scan (src/app1a.py lines 1216-1259): running
(best_row, best_score) state started at (None, 0), updated only on a
strictly larger score. -/
def scanHeaderRows : ℕ → Option ℕ × Int → List (List Cell) → Option ℕ × Int
  | _, st, [] => st
  | i, st, row :: rest =>
      scanHeaderRows (i + 1)
        (if skipHeaderRow row then st
         else if st.2 < rowScore row then (some i, rowScore row) else st)
        rest

/-- `best_row` and `best_score` after the scan. -/
def bestHeaderRow (rows : List (List Cell)) : Option ℕ × Int :=
  scanHeaderRows 0 (none, 0) rows

/-- Final header-row choice (src/app1a.py lines 1199 and 1262-1269):
the best row if its score reaches the threshold 5, otherwise the default
row index 2. -/
def headerRowChoice (rows : List (List Cell)) : ℕ :=
  match bestHeaderRow rows with
  | (some i, s) => if 5 ≤ s then i else 2
  | (none, _) => 2

/-- Scoring as the specification words it: the sum of the weights of the
keyword groups that match at least one cell, each group counted at most
once.  Kept side by side with `rowScore`, which follows the source, to
compare the two. -/
def keywordScoreSpec (row : List Cell) : Int :=
  column_patterns.foldl
    (fun a p => a + (if (rowLowerVals row).any (cellMatchesPat p) then p.wt else 0)) 0

/-- Row score as the specification words it (once-per-group counting). -/
def rowScoreSpec (row : List Cell) : Int :=
  keywordScoreSpec row + shortBonus row - emptyPenalty row

/-! ## Setup-sheet column mapping (src/app1a.py lines 1305-1343) -/

/-- The five column slots the setup-sheet mapper fills. -/
structure SetupCols where
  targetCol : Option String
  metricCol : Option String
  displayCol : Option String
  weightCol : Option String
  retailerCol : Option String
deriving DecidableEq, Repr

/-- The empty slot assignment. -/
def emptySetupCols : SetupCols :=
  ⟨none, none, none, none, none⟩

/-- One iteration of the setup-sheet column loop (src/app1a.py lines
1312-1328).  The `target_col is None` test is part of the first elif
guard, while the metric and weight `is None` tests sit inside their
branches; display and retailer have no such test and are overwritten. -/
def setupColsStep (st : SetupCols) (col : String) : SetupCols :=
  if strHasSub (pyLower col) "target" && st.targetCol.isNone
      && !strHasSub (pyLower col) "retailer" then
    { st with targetCol := some col }
  else if strHasSub (pyLower col) "display" && strHasSub (pyLower col) "name" then
    { st with displayCol := some col }
  else if (strHasSub (pyLower col) "metric" && strHasSub (pyLower col) "name")
      || (strHasSub (pyLower col) "measure" && strHasSub (pyLower col) "name") then
    if st.metricCol.isNone then { st with metricCol := some col } else st
  else if (strHasSub (pyLower col) "metric" && strHasSub (pyLower col) "weight")
      || (strHasSub (pyLower col) "measure" && strHasSub (pyLower col) "weight") then
    if st.weightCol.isNone then { st with weightCol := some col } else st
  else if strHasSub (pyLower col) "retailer" && !strHasSub (pyLower col) "target"
      && !strHasSub (pyLower col) "weight" then
    { st with retailerCol := some col }
  else st

/-- The setup-sheet column mapper over a header row. -/
def findSetupCols (cols : List String) : SetupCols :=
  cols.foldl setupColsStep emptySetupCols

/-- Display-name preference (src/app1a.py lines 1330-1335): the metric
column actually used for matching is the display-name column whenever
one was found. -/
def metricColFinal (sc : SetupCols) : Option String :=
  match sc.displayCol with
  | some d => some d
  | none => sc.metricCol

/-- The required-columns gate (src/app1a.py lines 1339-1343): with any
of target, metric/display or weight missing the whole file fails, and
the error carries the list of column names found in the sheet. -/
def requiredSetupCols (cols : List String) :
    Except (List String) (String × String × String) :=
  match (findSetupCols cols).targetCol, metricColFinal (findSetupCols cols),
      (findSetupCols cols).weightCol with
  | some t, some m, some w => Except.ok (t, m, w)
  | _, _, _ => Except.error cols

/-- The three column slots of the retailer weights/targets sheet. -/
structure RetailerCols where
  nameCol : Option String
  targetCol : Option String
  weightCol : Option String
deriving DecidableEq, Repr

/-- One iteration of the retailer-sheet column loop (src/app1a.py lines
1668-1675): a column containing "retailer" alone is the name column,
"retailer" and "target" the target column, "retailer" and "weight" the
weight column; later matches overwrite earlier ones. -/
def retailerColsStep (st : RetailerCols) (col : String) : RetailerCols :=
  if strHasSub (pyLower col) "retailer" && !strHasSub (pyLower col) "target"
      && !strHasSub (pyLower col) "weight" then
    { st with nameCol := some col }
  else if strHasSub (pyLower col) "retailer" && strHasSub (pyLower col) "target" then
    { st with targetCol := some col }
  else if strHasSub (pyLower col) "retailer" && strHasSub (pyLower col) "weight" then
    { st with weightCol := some col }
  else st

/-- The retailer-sheet column mapper. -/
def findRetailerCols (cols : List String) : RetailerCols :=
  cols.foldl retailerColsStep ⟨none, none, none⟩

/-! ## The two-pass weights/targets resolution
(src/app1a.py lines 1387-1576) -/

/-- One row of the export file, with the cells of the columns the
resolution reads.  An absent brand column is modelled as a blank brand
cell, which the brand filter treats the same way. -/
structure ExportRow where
  scorecard : Cell
  retailer : Cell
  brand : Cell
  measure_group : Cell
  measure_config : Cell
  target : Cell
  weight : Cell
deriving DecidableEq, Repr

/-- A cell the filters and the default fill treat as blank
(`pd.isna(v) or v == ''`). -/
def blankVal (c : Cell) : Bool :=
  c == Cell.blank || c == Cell.str ""

/-- The metric-rows filter mask (src/app1a.py lines 1465-1472). -/
def metricMask (scorecard_name : String) (r : ExportRow) : Bool :=
  r.scorecard == Cell.str scorecard_name
    && blankVal r.retailer && blankVal r.brand && blankVal r.measure_group
    && !blankVal r.measure_config

/-- The target/weight override a setup row contributes; `none` models a
NaN value (which never overwrites). -/
structure SetupVals where
  target : Option Cell
  weight : Option Cell
deriving DecidableEq, Repr

/-- One row of the setup sheet after column mapping. -/
structure SetupRow where
  metricName : Cell
  target : Cell
  weight : Cell
deriving DecidableEq, Repr

/-- Building the simple (no retailer column) setup mapping
(src/app1a.py lines 1390-1431): keys are lowercased stripped metric
names, blank and "nan" names are skipped, values go through
`extract_number`, and later rows overwrite earlier ones. -/
def buildSetupMapping (rows : List SetupRow) : String → Option SetupVals :=
  rows.foldl
    (fun m r =>
      let metric_name := pyStrField r.metricName
      if metric_name = "" ∨ metric_name = "nan" then m
      else fun k =>
        if k = pyLower metric_name then
          some ⟨extract_number r.target, extract_number r.weight⟩
        else m k)
    (fun _ => none)

/-- Step 1 per-row update (src/app1a.py lines 1491-1549, the simple
match path used when the setup sheet has no retailer column): on rows
passing the filter mask, look the measure_config up in the setup mapping
and overwrite target and weight with any non-NaN setup values. -/
def step1Row (scorecard_name : String) (setup : String → Option SetupVals)
    (r : ExportRow) : ExportRow :=
  if metricMask scorecard_name r then
    let measure_config := pyStrField r.measure_config
    if measure_config = "" ∨ measure_config = "nan" then r
    else
      match setup (pyLower measure_config) with
      | some sv =>
          let t := match sv.target with | some t => t | none => r.target
          let w := match sv.weight with | some w => w | none => r.weight
          { r with target := t, weight := w }
      | none => r
  else r

/-- Step 2, the default fill (src/app1a.py lines 1557-1576): a blank
target becomes 50 and a blank weight becomes 1.0, on every row. -/
def step2Row (r : ExportRow) : ExportRow :=
  let r1 := if blankVal r.target then { r with target := Cell.num 50 } else r
  if blankVal r1.weight then { r1 with weight := Cell.num 1 } else r1

/-- The two-pass per-row resolution: overrides first (step 1), then the
default fill (step 2). -/
def resolveRow (scorecard_name : String) (setup : String → Option SetupVals)
    (r : ExportRow) : ExportRow :=
  step2Row (step1Row scorecard_name setup r)

/-! ## Helper lemmas -/

/-- A percent sign appended to any character list is found by the
substring test. -/
theorem hasSub_append_percent (l : List Char) :
    charsHasSub (l ++ ['%']) ['%'] = true := by
  induction l with
  | nil => decide
  | cons c cs ih => simp [charsHasSub, ih]

/-- `takeWhile` stops exactly at the first element breaking the
predicate when everything before it satisfies it. -/
theorem takeWhile_all_append (p : Char → Bool) :
    ∀ (l : List Char) (x : Char) (t : List Char),
      l.all p = true → p x = false → (l ++ x :: t).takeWhile p = l := by
  intro l
  induction l with
  | nil =>
      intro x t _ hx
      simp [List.takeWhile, hx]
  | cons c cs ih =>
      intro x t hall hx
      simp only [List.all_cons, Bool.and_eq_true] at hall
      simp [List.takeWhile, hall.1, ih x t hall.2 hx]

/-- The regex search on `<digits-and-dots>%` extracts exactly the run
before the percent sign. -/
theorem firstRun_digits_append (cs : List Char) (hne : cs ≠ [])
    (hall : cs.all isDigDot = true) : firstRun (cs ++ ['%']) = some cs := by
  cases cs with
  | nil => exact absurd rfl hne
  | cons c cs =>
      simp only [List.all_cons, Bool.and_eq_true] at hall
      simp [firstRun, hall.1,
        takeWhile_all_append isDigDot cs '%' [] hall.2 (by decide)]

/-! ## Claims -/

/-- C1: for every value fed to `extract_number`, a string of the form
`<number>%` yields the bare number ("50%" yields 50, not 0.5), and a
value that is already an int or float is returned unchanged, including
every value strictly between 0 and 1. -/
theorem C1_extract_number_percent_and_numeric_passthrough :
    (∀ (s : String) (cs : List Char) (q : ℚ),
        (pyStrip s).data = cs ++ ['%'] → cs ≠ [] → cs.all isDigDot = true →
        ratOfRun cs = some q →
        extract_number (Cell.str s) = some (Cell.num q)) ∧
    (∀ q : ℚ, extract_number (Cell.num q) = some (Cell.num q)) := by
  constructor
  · intro s cs q hdata hne hall hrat
    have hs : ¬(s = "") := by
      intro h0
      subst h0
      have h1 : (pyStrip "").data = [] := rfl
      rw [h1] at hdata
      simp at hdata
    have hsub : strHasSub (pyStrip s) "%" = true := by
      show charsHasSub (pyStrip s).data ['%'] = true
      rw [hdata]
      exact hasSub_append_percent cs
    simp only [extract_number]
    rw [if_neg hs, if_pos hsub, hdata, firstRun_digits_append cs hne hall]
    simp [hrat]
  · intro q
    rfl

/-- Witness for C1 at the spec's own round-trip examples: "50%" becomes
50 and the decimal 1/2 is passed through unchanged. -/
theorem C1_extract_number_witness :
    extract_number (Cell.str "50%") = some (Cell.num 50) ∧
    extract_number (Cell.num (1/2)) = some (Cell.num (1/2)) :=
  ⟨C1_extract_number_percent_and_numeric_passthrough.1 "50%" ['5', '0'] 50
      (by decide) (by decide) (by decide) (by decide),
   C1_extract_number_percent_and_numeric_passthrough.2 (1/2)⟩

/-- C9: a string that contains a percent sign but no parseable digit
run comes back from `extract_number` unchanged, never as None, so such a
cell is not treated as missing. -/
theorem C9_percent_without_number_returns_original :
    ∀ s : String, strHasSub (pyStrip s) "%" = true →
      (∀ run, firstRun (pyStrip s).data = some run → ratOfRun run = none) →
      extract_number (Cell.str s) = some (Cell.str s) := by
  intro s hsub hrun
  have hs : ¬(s = "") := by
    intro h0
    subst h0
    exact absurd hsub (by decide)
  simp only [extract_number]
  rw [if_neg hs, if_pos hsub]
  cases hfr : firstRun (pyStrip s).data with
  | none => rfl
  | some run => simp [hrun run hfr]

/-- Witness for C9 at "abc%": no digit run, the string is returned as-is. -/
theorem C9_percent_witness :
    extract_number (Cell.str "abc%") = some (Cell.str "abc%") := by
  have h : firstRun (pyStrip "abc%").data = none := by decide
  refine C9_percent_without_number_returns_original "abc%" (by decide) ?_
  intro run hr
  rw [h] at hr
  exact Option.noConfusion hr

/-- C2 counterexample: the claimed iff fails in both directions.  A
data row whose selection flag normalizes to true but whose
measure-group cell is blank contributes no record; and on a purely
numeric selection column (dtype `int64`, never stringified) a row whose
flag cell is the number 1 — which does not normalize to the string
"true" — does contribute a record, because line 534 keeps cells equal
to True under numeric comparison. -/
theorem C2_counterexample_flag_true_blank_group :
    (selKeep [Cell.str "true"] (Cell.str "true") = true ∧
      processSelRows
        [⟨Cell.str "true", Cell.blank, Cell.str "m", Cell.str "d", Cell.str "x"⟩]
        = []) ∧
    (pyLower (pyStrip (pyStr (Cell.num 1))) ≠ "true" ∧
      processSelRows
        [⟨Cell.num 1, Cell.str "G", Cell.str "m", Cell.str "d", Cell.str "x"⟩]
        = [recOfSel ⟨Cell.num 1, Cell.str "G", Cell.str "m", Cell.str "d",
            Cell.str "x"⟩]) := by
  decide

/-- C2 as amended: which rows are kept depends on the selection
column's dtype.  On an `object` column (any string cell, any blank, or
booleans mixed with numbers) a cell is kept exactly when it is boolean
True or its stripped lowercased string form is "true"; on a non-object
column (purely boolean or purely numeric) a cell is kept exactly when
it is boolean True or the number 1.  A row contributes a record exactly
when its flag cell is kept under this filter AND its measure-group cell
is non-blank (not "" and not "nan" after stringification); the output
is those rows' records in order. -/
theorem C2_selection_filter_amended :
    (∀ c : Cell, selNormalizeObj c = true ↔
        (c = Cell.bool true ∨ pyLower (pyStrip (pyStr c)) = "true")) ∧
    (∀ (col : List Cell) (c : Cell), selColObject col = false →
        (selKeep col c = true ↔ (c = Cell.bool true ∨ c = Cell.num 1))) ∧
    (∀ rows : List SelRow,
        processSelRows rows =
          (rows.filter (fun r =>
            selKeep (rows.map SelRow.selection) r.selection
              && selGroupOk r)).map recOfSel) := by
  refine ⟨?_, ?_, ?_⟩
  · intro c
    cases c with
    | blank => simp [selNormalizeObj]; decide
    | str s =>
        simp only [selNormalizeObj]
        constructor
        · intro h
          exact Or.inr (by exact of_decide_eq_true h)
        · intro h
          rcases h with h | h
          · exact Cell.noConfusion h
          · exact decide_eq_true h
    | num q =>
        simp only [selNormalizeObj]
        constructor
        · intro h
          exact Or.inr (of_decide_eq_true h)
        · intro h
          rcases h with h | h
          · exact Cell.noConfusion h
          · exact decide_eq_true h
    | bool b =>
        cases b with
        | false => simp [selNormalizeObj]; decide
        | true => simp [selNormalizeObj]
  · intro col c h
    unfold selKeep
    rw [h]
    simp only [Bool.false_eq_true, if_false]
    cases c with
    | blank => simp
    | str s => simp
    | num q =>
        constructor
        · intro hq
          exact Or.inr (by rw [beq_iff_eq.mp hq])
        · intro hq
          rcases hq with hq | hq
          · exact Cell.noConfusion hq
          · injection hq with hq1
            rw [hq1]
            exact beq_iff_eq.mpr rfl
    | bool b => cases b <;> simp
  · intro rows
    show processSelRowsAux (selKeep (rows.map SelRow.selection)) rows = _
    generalize selKeep (rows.map SelRow.selection) = keep
    induction rows with
    | nil => rfl
    | cons r rs ih =>
        cases h1 : keep r.selection with
        | false => simp [processSelRowsAux, List.filter_cons, h1, ih]
        | true =>
            cases h2 : selGroupOk r with
            | false => simp [processSelRowsAux, List.filter_cons, h1, h2, ih]
            | true => simp [processSelRowsAux, List.filter_cons, h1, h2, ih]

/-- Witness for C2: a whitespace-and-case variant of "true" normalizes
to kept on an object column, the number 1 is kept on a purely numeric
column, and a boolean-True flagged row with a non-blank group produces
its record. -/
theorem C2_selection_filter_witness :
    selNormalizeObj (Cell.str " TRUE ") = true ∧
    selKeep [Cell.num 1, Cell.num 0] (Cell.num 1) = true ∧
    processSelRows
      [⟨Cell.bool true, Cell.str "G", Cell.str "m", Cell.str "d", Cell.str "x"⟩]
      = [recOfSel ⟨Cell.bool true, Cell.str "G", Cell.str "m", Cell.str "d",
          Cell.str "x"⟩] := by
  refine ⟨?_, ?_, ?_⟩
  · exact (C2_selection_filter_amended.1 (Cell.str " TRUE ")).mpr
      (Or.inr (by decide))
  · exact (C2_selection_filter_amended.2.1 [Cell.num 1, Cell.num 0]
      (Cell.num 1) (by decide)).mpr (Or.inr rfl)
  · rw [C2_selection_filter_amended.2.2]
    decide

/-- A fold adding `w` for every element passing `m` computes `w` times
the number of passing elements. -/
theorem foldl_ite_add_count {α : Type} (w : Int) (m : α → Bool) :
    ∀ (l : List α) (a : Int),
      l.foldl (fun acc v => if m v then acc + w else acc) a
        = a + w * (((l.filter m).length : ℕ) : ℤ) := by
  intro l
  induction l with
  | nil => intro a; simp
  | cons v vs ih =>
      intro a
      cases hv : m v with
      | false => simp [List.foldl, List.filter_cons, hv, ih a]
      | true =>
          simp only [List.foldl, List.filter_cons, hv, if_true, ih (a + w),
            List.length_cons]
          push_cast
          ring

/-- The per-group scoring loop adds the group's weight once per
matching cell. -/
theorem patScore_eq (p : KwPat) (l : List String) :
    patScore p l = p.wt * (((l.filter (cellMatchesPat p)).length : ℕ) : ℤ) := by
  have h := foldl_ite_add_count p.wt (cellMatchesPat p) l 0
  simpa [patScore] using h

/-- Head of a cons list by position. -/
theorem getHead {α : Type} (a : α) (l : List α) (h : 0 < (a :: l).length) :
    (a :: l).get ⟨0, h⟩ = a := rfl

/-- Tail elements of a cons list by position. -/
theorem getTail {α : Type} (a : α) (l : List α) (j : ℕ)
    (h : j + 1 < (a :: l).length) :
    (a :: l).get ⟨j + 1, h⟩ = l.get ⟨j, Nat.lt_of_succ_lt_succ h⟩ := rfl

/-- Invariant of the best-candidate scan: the final score dominates the
starting score and every non-skipped row's score, and the final state is
either the starting state or records a non-skipped row's position and
score, strictly above the starting score. -/
theorem scanHeaderRows_spec :
    ∀ (rows : List (List Cell)) (i : ℕ) (b0 : Option ℕ) (s0 : Int),
      s0 ≤ (scanHeaderRows i (b0, s0) rows).2 ∧
      (∀ (j : ℕ) (h : j < rows.length),
        skipHeaderRow (rows.get ⟨j, h⟩) = false →
        rowScore (rows.get ⟨j, h⟩) ≤ (scanHeaderRows i (b0, s0) rows).2) ∧
      (scanHeaderRows i (b0, s0) rows = (b0, s0) ∨
        ∃ (j : ℕ) (h : j < rows.length),
          (scanHeaderRows i (b0, s0) rows).1 = some (i + j) ∧
          (scanHeaderRows i (b0, s0) rows).2 = rowScore (rows.get ⟨j, h⟩) ∧
          skipHeaderRow (rows.get ⟨j, h⟩) = false ∧
          s0 < (scanHeaderRows i (b0, s0) rows).2) := by
  intro rows
  induction rows with
  | nil =>
      intro i b0 s0
      refine ⟨le_refl s0, ?_, Or.inl rfl⟩
      intro j h
      exact absurd h (by simp)
  | cons row rest ih =>
      intro i b0 s0
      by_cases hskip : skipHeaderRow row = true
      · have hstep : scanHeaderRows i (b0, s0) (row :: rest)
            = scanHeaderRows (i + 1) (b0, s0) rest := by
          simp [scanHeaderRows, hskip]
        obtain ⟨ih1, ih2, ih3⟩ := ih (i + 1) b0 s0
        rw [hstep]
        refine ⟨ih1, ?_, ?_⟩
        · intro j h hsk
          cases j with
          | zero =>
              rw [getHead] at hsk
              rw [hskip] at hsk
              exact Bool.noConfusion hsk
          | succ j =>
              rw [getTail] at hsk
              rw [getTail]
              exact ih2 j (Nat.lt_of_succ_lt_succ h) hsk
        · rcases ih3 with h3 | ⟨j, h, hj1, hj2, hj3, hj4⟩
          · exact Or.inl h3
          · refine Or.inr ⟨j + 1, Nat.succ_lt_succ h, ?_, ?_, ?_, hj4⟩
            · rw [hj1]
              have : i + 1 + j = i + (j + 1) := by omega
              rw [this]
            · rw [getTail]
              exact hj2
            · rw [getTail]
              exact hj3
      · have hskipf : skipHeaderRow row = false := by
          cases hh : skipHeaderRow row
          · rfl
          · exact absurd hh hskip
        by_cases hcmp : s0 < rowScore row
        · have hstep : scanHeaderRows i (b0, s0) (row :: rest)
              = scanHeaderRows (i + 1) (some i, rowScore row) rest := by
            simp [scanHeaderRows, hskipf, hcmp]
          obtain ⟨ih1, ih2, ih3⟩ := ih (i + 1) (some i) (rowScore row)
          rw [hstep]
          refine ⟨le_trans (le_of_lt hcmp) ih1, ?_, ?_⟩
          · intro j h hsk
            cases j with
            | zero =>
                rw [getHead]
                exact ih1
            | succ j =>
                rw [getTail] at hsk
                rw [getTail]
                exact ih2 j (Nat.lt_of_succ_lt_succ h) hsk
          · rcases ih3 with h3 | ⟨j, h, hj1, hj2, hj3, hj4⟩
            · refine Or.inr ⟨0, by simp, ?_, ?_, ?_, ?_⟩
              · rw [h3]
                simp
              · rw [h3, getHead]
              · rw [getHead]
                exact hskipf
              · rw [h3]
                exact hcmp
            · refine Or.inr ⟨j + 1, Nat.succ_lt_succ h, ?_, ?_, ?_, ?_⟩
              · rw [hj1]
                have : i + 1 + j = i + (j + 1) := by omega
                rw [this]
              · rw [getTail]
                exact hj2
              · rw [getTail]
                exact hj3
              · exact lt_trans hcmp hj4
        · have hstep : scanHeaderRows i (b0, s0) (row :: rest)
              = scanHeaderRows (i + 1) (b0, s0) rest := by
            simp [scanHeaderRows, hskipf, hcmp]
          obtain ⟨ih1, ih2, ih3⟩ := ih (i + 1) b0 s0
          rw [hstep]
          refine ⟨ih1, ?_, ?_⟩
          · intro j h hsk
            cases j with
            | zero =>
                rw [getHead]
                exact le_trans (not_lt.mp hcmp) ih1
            | succ j =>
                rw [getTail] at hsk
                rw [getTail]
                exact ih2 j (Nat.lt_of_succ_lt_succ h) hsk
          · rcases ih3 with h3 | ⟨j, h, hj1, hj2, hj3, hj4⟩
            · exact Or.inl h3
            · refine Or.inr ⟨j + 1, Nat.succ_lt_succ h, ?_, ?_, ?_, hj4⟩
              · rw [hj1]
                have : i + 1 + j = i + (j + 1) := by omega
                rw [this]
              · rw [getTail]
                exact hj2
              · rw [getTail]
                exact hj3

/-- C3 counterexample: the row ["target", "target a", "weight"] is a
candidate (not skipped), the source scores it 9 because the "target"
group's weight 3 is added once per matching cell (two cells match), but
the once-per-group formula of the claim gives 6. -/
theorem C3_counterexample_weight_counted_per_cell :
    skipHeaderRow [Cell.str "target", Cell.str "target a", Cell.str "weight"]
      = false ∧
    rowScore [Cell.str "target", Cell.str "target a", Cell.str "weight"] = 9 ∧
    rowScoreSpec [Cell.str "target", Cell.str "target a", Cell.str "weight"]
      = 6 := by
  decide

/-- C3 as amended: the score of a candidate row is, over keyword groups,
the group's weight times the number of its matching cells (once per
cell, not once per group), plus the +2 short-cells bonus, minus the 5
mostly-empty penalty; the detector picks the best-scoring non-skipped
row when its score reaches 5 and otherwise falls back to the default
row index 2. -/
theorem C3_header_detector_amended :
    (∀ row : List Cell,
        rowScore row =
          column_patterns.foldl
            (fun a p => a +
              p.wt * ((((rowLowerVals row).filter (cellMatchesPat p)).length : ℕ) : ℤ))
            0
          + shortBonus row - emptyPenalty row) ∧
    (∀ (rows : List (List Cell)) (i : ℕ) (s : Int),
        bestHeaderRow rows = (some i, s) → 5 ≤ s →
        headerRowChoice rows = i ∧
        ∃ h : i < rows.length,
          skipHeaderRow (rows.get ⟨i, h⟩) = false ∧
          rowScore (rows.get ⟨i, h⟩) = s ∧
          ∀ (j : ℕ) (hj : j < rows.length),
            skipHeaderRow (rows.get ⟨j, hj⟩) = false →
            rowScore (rows.get ⟨j, hj⟩) ≤ s) ∧
    (∀ rows : List (List Cell),
        (bestHeaderRow rows).2 < 5 → headerRowChoice rows = 2) := by
  refine ⟨?_, ?_, ?_⟩
  · intro row
    simp only [rowScore, keywordScore, patScore_eq]
  · intro rows i s hbest h5
    obtain ⟨h1, h2, h3⟩ := scanHeaderRows_spec rows 0 none 0
    have hb : scanHeaderRows 0 (none, 0) rows = (some i, s) := hbest
    constructor
    · simp [headerRowChoice, hbest, if_pos h5]
    · rcases h3 with h3 | ⟨j, h, hj1, hj2, hj3, hj4⟩
      · rw [h3] at hb
        simp at hb
      · rw [hb] at hj1 hj2
        have hij : i = j := by
          simp at hj1
          omega
        subst hij
        refine ⟨h, hj3, hj2.symm, ?_⟩
        intro j hj hsk
        have := h2 j hj hsk
        rw [hb] at this
        exact this
  · intro rows h
    rcases hb : bestHeaderRow rows with ⟨b, s⟩
    rw [hb] at h
    cases b with
    | none => simp [headerRowChoice, hb]
    | some i =>
        simp only at h
        simp [headerRowChoice, hb, if_neg (not_le.mpr h)]

/-- Witness for C3: on a two-row grid whose second row holds the
canonical labels the detector picks row 1. -/
theorem C3_header_detector_witness :
    headerRowChoice [[Cell.str "x"],
      [Cell.str "Target", Cell.str "Weight", Cell.str "Metric Name",
       Cell.str "Display Name", Cell.str "Retailer"]] = 1 :=
  (C3_header_detector_amended.2.1 _ 1 13 (by decide) (by decide)).1

/-- A failing order computation makes the whole grouping-layout row
raise; the blank-group skip test is never reached. -/
theorem processGroupRow_eq_error (idx : ℕ) (r : GroupRow) (e : String)
    (hmo : (if notna r.measureOrder then pyIntCell r.measureOrder
            else Except.ok ((idx : Int) + 1)) = Except.error e) :
    processGroupRow idx r = Except.error e := by
  cases hn : notna r.measureOrder with
  | false =>
      rw [hn] at hmo
      simp at hmo
  | true =>
      rw [hn] at hmo
      simp only [if_true] at hmo
      unfold processGroupRow
      rw [hn, hmo]
      rfl

/-- With the order value computed, a grouping-layout row yields either
nothing (blank group) or the record built from the stringified fields. -/
theorem processGroupRow_eq_ok (idx : ℕ) (r : GroupRow) (mo : Int)
    (hmo : (if notna r.measureOrder then pyIntCell r.measureOrder
            else Except.ok ((idx : Int) + 1)) = Except.ok mo) :
    processGroupRow idx r =
      (if pyStrField r.groupingName = "" ∨ pyStrField r.groupingName = "nan"
       then Except.ok none
       else Except.ok (some
         { measure_group := pyStrField r.groupingName
           standard_kpis := pyStrField r.internalName
           measure_display_name :=
             if pyStrField r.clientName ≠ "" ∧ pyStrField r.clientName ≠ "nan"
             then pyStrField r.clientName else pyStrField r.internalName
           definition := pyStrField r.notes
           order := some mo })) := by
  cases hn : notna r.measureOrder with
  | false =>
      rw [hn] at hmo
      simp only [Bool.false_eq_true, if_false] at hmo
      injection hmo with hmo1
      unfold processGroupRow
      rw [hn, hmo1]
      rfl
  | true =>
      rw [hn] at hmo
      simp only [if_true] at hmo
      unfold processGroupRow
      rw [hn, hmo]
      rfl

/-- A row that produced a record has a successfully computed order
value stored in the record and a non-blank grouping name. -/
theorem processGroupRow_ok_some (idx : ℕ) (r : GroupRow) (r0 : Record)
    (h : processGroupRow idx r = Except.ok (some r0)) :
    ∃ mo, (if notna r.measureOrder then pyIntCell r.measureOrder
           else Except.ok ((idx : Int) + 1)) = Except.ok mo ∧
      r0.order = some mo ∧
      r0.measure_group = pyStrField r.groupingName ∧
      pyStrField r.groupingName ≠ "" ∧ pyStrField r.groupingName ≠ "nan" := by
  cases ho : (if notna r.measureOrder then pyIntCell r.measureOrder
              else Except.ok ((idx : Int) + 1)) with
  | error e =>
      rw [processGroupRow_eq_error idx r e ho] at h
      exact Except.noConfusion h
  | ok mo =>
      have h2 := processGroupRow_eq_ok idx r mo ho
      rw [h] at h2
      by_cases hg : pyStrField r.groupingName = "" ∨ pyStrField r.groupingName = "nan"
      · rw [if_pos hg] at h2
        injection h2 with h3
        exact Option.noConfusion h3
      · rw [if_neg hg] at h2
        injection h2 with h3
        injection h3 with h4
        subst h4
        push_neg at hg
        exact ⟨mo, rfl, rfl, rfl, hg.1, hg.2⟩

/-- Every record produced by the grouping-layout loop has a non-blank
group. -/
theorem processGroupRows_ok_mem (rows : List GroupRow) :
    ∀ (idx : ℕ) (l : List Record), processGroupRows idx rows = Except.ok l →
      ∀ r0 ∈ l, r0.measure_group ≠ "" ∧ r0.measure_group ≠ "nan" := by
  induction rows with
  | nil =>
      intro idx l h r0 hr0
      simp only [processGroupRows] at h
      injection h with h1
      subst h1
      exact absurd hr0 (by simp)
  | cons row rest ih =>
      intro idx l h r0 hr0
      unfold processGroupRows at h
      cases hrow : processGroupRow idx row with
      | error e =>
          rw [hrow] at h
          exact Except.noConfusion h
      | ok o =>
          rw [hrow] at h
          cases hrest : processGroupRows (idx + 1) rest with
          | error e =>
              rw [hrest] at h
              exact Except.noConfusion h
          | ok l2 =>
              rw [hrest] at h
              cases o with
              | none =>
                  injection h with h1
                  subst h1
                  exact ih (idx + 1) l2 hrest r0 hr0
              | some r1 =>
                  injection h with h1
                  subst h1
                  rcases List.mem_cons.mp hr0 with h2 | h2
                  · subst h2
                    obtain ⟨mo, _, _, hgrp, hne1, hne2⟩ :=
                      processGroupRow_ok_some idx row r0 hrow
                    rw [hgrp]
                    exact ⟨hne1, hne2⟩
                  · exact ih (idx + 1) l2 hrest r0 h2

/-- Every record produced by the selection-layout row loop, whatever
the keep predicate, has a non-blank group. -/
theorem processSelRowsAux_mem (keep : Cell → Bool) (rows : List SelRow) :
    ∀ r0 ∈ processSelRowsAux keep rows,
      r0.measure_group ≠ "" ∧ r0.measure_group ≠ "nan" := by
  induction rows with
  | nil =>
      intro r0 h
      exact absurd h (by simp [processSelRowsAux])
  | cons r rs ih =>
      intro r0 h
      unfold processSelRowsAux at h
      cases h1 : keep r.selection with
      | false =>
          rw [h1] at h
          simp only [Bool.false_eq_true, if_false] at h
          exact ih r0 h
      | true =>
          rw [h1] at h
          simp only [if_true] at h
          cases h2 : selGroupOk r with
          | false =>
              rw [h2] at h
              simp only [Bool.false_eq_true, if_false] at h
              exact ih r0 h
          | true =>
              rw [h2] at h
              simp only [if_true] at h
              rcases List.mem_cons.mp h with h3 | h3
              · subst h3
                simp only [selGroupOk, Bool.not_eq_true', Bool.or_eq_false_iff,
                  beq_eq_false_iff_ne] at h2
                exact h2
              · exact ih r0 h3

/-- Every record produced by the selection layout has a non-blank
group. -/
theorem processSelRows_mem (rows : List SelRow) :
    ∀ r0 ∈ processSelRows rows,
      r0.measure_group ≠ "" ∧ r0.measure_group ≠ "nan" :=
  processSelRowsAux_mem (selKeep (rows.map SelRow.selection)) rows

/-- Every record produced by the named plain layout has a non-blank
group. -/
theorem processPlainN_mem (rows : List PlainRowN) :
    ∀ r0 ∈ processPlainN rows,
      r0.measure_group ≠ "" ∧ r0.measure_group ≠ "nan" := by
  induction rows with
  | nil =>
      intro r0 h
      exact absurd h (by simp [processPlainN])
  | cons r rs ih =>
      intro r0 h
      unfold processPlainN at h
      cases h1 : plainNGroupOk r with
      | false =>
          rw [h1] at h
          simp only [Bool.false_eq_true, if_false] at h
          exact ih r0 h
      | true =>
          rw [h1] at h
          simp only [if_true] at h
          rcases List.mem_cons.mp h with h3 | h3
          · subst h3
            simp only [plainNGroupOk, Bool.not_eq_true', Bool.or_eq_false_iff,
              beq_eq_false_iff_ne] at h1
            exact h1
          · exact ih r0 h3

/-- Every record produced by the positional plain layout has a
non-blank group. -/
theorem processPlainPos_mem (rows : List (List Cell)) :
    ∀ r0 ∈ processPlainPos rows,
      r0.measure_group ≠ "" ∧ r0.measure_group ≠ "nan" := by
  induction rows with
  | nil =>
      intro r0 h
      exact absurd h (by simp [processPlainPos])
  | cons row rs ih =>
      intro r0 h
      unfold processPlainPos at h
      by_cases h1 : (recOfPlainPos row).measure_group = ""
        ∨ (recOfPlainPos row).measure_group = "nan"
      · rw [if_pos h1] at h
        exact ih r0 h
      · rw [if_neg h1] at h
        rcases List.mem_cons.mp h with h3 | h3
        · subst h3
          push_neg at h1
          exact h1
        · exact ih r0 h3

/-- C5: every record emitted by `read_excel_data`, in any of the
layouts, has a non-empty measure_group that is not "nan"; blank-group
rows are dropped, never emitted partially populated. -/
theorem C5_emitted_records_nonempty_group :
    ∀ (d : SheetData) (recs : List Record),
      read_excel_data d = some recs →
      ∀ r0 ∈ recs, r0.measure_group ≠ "" ∧ r0.measure_group ≠ "nan" := by
  intro d recs h r0 hr0
  cases d with
  | grouping rows =>
      unfold read_excel_data at h
      cases he : readExcelDataE (SheetData.grouping rows) with
      | error e =>
          rw [he] at h
          exact Option.noConfusion h
      | ok l =>
          rw [he] at h
          injection h with h1
          subst h1
          exact processGroupRows_ok_mem rows 0 _ he r0 hr0
  | selection rows =>
      have he : read_excel_data (SheetData.selection rows)
          = some (processSelRows rows) := rfl
      rw [he] at h
      injection h with h1
      subst h1
      exact processSelRows_mem rows r0 hr0
  | plainNamed rows =>
      have he : read_excel_data (SheetData.plainNamed rows)
          = some (processPlainN rows) := rfl
      rw [he] at h
      injection h with h1
      subst h1
      exact processPlainN_mem rows r0 hr0
  | plainPos rows =>
      have he : read_excel_data (SheetData.plainPos rows)
          = some (processPlainPos rows) := rfl
      rw [he] at h
      injection h with h1
      subst h1
      exact processPlainPos_mem rows r0 hr0

/-- Witness for C5 on a one-row named plain-layout sheet. -/
theorem C5_emitted_records_witness :
    (⟨"Availability", "kpi_1", "In Stock", "defn", none⟩ : Record).measure_group
        ≠ "" ∧
    (⟨"Availability", "kpi_1", "In Stock", "defn", none⟩ : Record).measure_group
        ≠ "nan" :=
  C5_emitted_records_nonempty_group
    (SheetData.plainNamed
      [⟨Cell.str "Availability", Cell.str "kpi_1", Cell.str "In Stock",
        Cell.str "defn"⟩])
    [⟨"Availability", "kpi_1", "In Stock", "defn", none⟩]
    (by decide)
    ⟨"Availability", "kpi_1", "In Stock", "defn", none⟩
    (by decide)

/-- C7 counterexample: a grouping-layout sheet holding one selected row
whose Measure Order cell is the unparseable string "abc" makes the whole
read fail (`read_excel_data` returns None); the unparseable order cell
is not recovered as a per-row fallback. -/
theorem C7_counterexample_unparseable_order_fatal :
    read_excel_data (SheetData.grouping
      [⟨Cell.str "G", Cell.str "c", Cell.str "i", Cell.str "n",
        Cell.str "abc"⟩]) = none := by
  decide

/-- C7 as amended: on the grouping layout the emitted record's order is
the Python-int value of the Measure Order cell when the cell is present
and convertible, and the 1-based row position when the cell is absent;
a present but unparseable cell raises, which aborts the whole file
instead of falling back per row. -/
theorem C7_order_field_amended :
    (∀ (idx : ℕ) (r : GroupRow) (r0 : Record),
        processGroupRow idx r = Except.ok (some r0) →
        (r.measureOrder = Cell.blank ∧ r0.order = some ((idx : Int) + 1)) ∨
        (∃ n, pyIntCell r.measureOrder = Except.ok n ∧ r0.order = some n)) ∧
    (∀ (idx : ℕ) (r : GroupRow) (rs : List GroupRow) (e : String),
        r.measureOrder ≠ Cell.blank →
        pyIntCell r.measureOrder = Except.error e →
        processGroupRows idx (r :: rs) = Except.error e) := by
  constructor
  · intro idx r r0 h
    obtain ⟨mo, hmo, hord, _, _, _⟩ := processGroupRow_ok_some idx r r0 h
    cases hn : notna r.measureOrder with
    | false =>
        left
        have hblank : r.measureOrder = Cell.blank := by
          cases hmo2 : r.measureOrder
          · rfl
          all_goals (rw [hmo2] at hn; exact Bool.noConfusion hn)
        rw [hn] at hmo
        simp only [Bool.false_eq_true, if_false] at hmo
        injection hmo with hmo1
        rw [hord, ← hmo1]
        exact ⟨hblank, rfl⟩
    | true =>
        right
        rw [hn] at hmo
        simp only [if_true] at hmo
        exact ⟨mo, hmo, hord⟩
  · intro idx r rs e hne hi
    have hn : notna r.measureOrder = true := by
      cases hmo : r.measureOrder
      · exact absurd hmo hne
      all_goals rfl
    have hrow : processGroupRow idx r = Except.error e :=
      processGroupRow_eq_error idx r e (by rw [if_pos hn, hi])
    unfold processGroupRows
    rw [hrow]
    rfl

/-- Witness for C7: a numeric order cell is stored as its integer
value, and an unparseable one aborts the row loop with the int error. -/
theorem C7_order_field_witness :
    (((Cell.num 7 = Cell.blank ∧
        (⟨"G", "", "", "", some 7⟩ : Record).order = some (((0:ℕ) : Int) + 1)) ∨
      ∃ n, pyIntCell (Cell.num 7) = Except.ok n ∧
        (⟨"G", "", "", "", some 7⟩ : Record).order = some n)) ∧
    processGroupRows 0
      [⟨Cell.str "G", Cell.blank, Cell.blank, Cell.blank, Cell.str "abc"⟩]
      = Except.error "invalid literal for int: abc" := by
  constructor
  · exact C7_order_field_amended.1 0
      ⟨Cell.str "G", Cell.blank, Cell.blank, Cell.blank, Cell.num 7⟩
      ⟨"G", "", "", "", some 7⟩ (by decide)
  · exact C7_order_field_amended.2 0
      ⟨Cell.str "G", Cell.blank, Cell.blank, Cell.blank, Cell.str "abc"⟩
      [] "invalid literal for int: abc" (by decide) (by decide)

/-- C10: `read_excel_data` returns None exactly when its body raised
(modelled as `readExcelDataE` producing an error), and returns the
record list exactly when the body succeeded; no exception escapes to the
caller. -/
theorem C10_read_excel_data_none_on_error :
    ∀ d : SheetData,
      (read_excel_data d = none ↔ ∃ e, readExcelDataE d = Except.error e) ∧
      (∀ rs, read_excel_data d = some rs ↔ readExcelDataE d = Except.ok rs) := by
  intro d
  cases he : readExcelDataE d with
  | error e => simp [read_excel_data, he]
  | ok l => simp [read_excel_data, he]

/-- Witness for C10: an empty positional sheet succeeds with an empty
record list, and a grouping sheet with a bad order cell yields None. -/
theorem C10_read_excel_data_witness :
    read_excel_data (SheetData.plainPos []) = some [] ∧
    read_excel_data (SheetData.grouping
      [⟨Cell.str "G", Cell.blank, Cell.blank, Cell.blank, Cell.str "x"⟩])
      = none := by
  constructor
  · exact ((C10_read_excel_data_none_on_error (SheetData.plainPos [])).2 []).mpr
      (by decide)
  · exact (C10_read_excel_data_none_on_error _).1.mpr
      ⟨"invalid literal for int: x", by decide⟩

/-- C6: with no target column, no metric/display-name column, or no
weight column locatable in the setup sheet, the whole file fails and
the failure diagnostic carries the column names that were found. -/
theorem C6_missing_required_columns_fail :
    ∀ cols : List String,
      ((findSetupCols cols).targetCol = none ∨
        metricColFinal (findSetupCols cols) = none ∨
        (findSetupCols cols).weightCol = none) →
      requiredSetupCols cols = Except.error cols := by
  intro cols h
  cases h1 : (findSetupCols cols).targetCol with
  | none => simp [requiredSetupCols, h1]
  | some t =>
      cases h2 : metricColFinal (findSetupCols cols) with
      | none => simp [requiredSetupCols, h1, h2]
      | some m =>
          cases h3 : (findSetupCols cols).weightCol with
          | none => simp [requiredSetupCols, h1, h2, h3]
          | some w => rcases h with h | h | h <;> simp_all

/-- Witness for C6 on a sheet with none of the required columns. -/
theorem C6_missing_required_columns_witness :
    requiredSetupCols ["Notes", "Stuff", "Other"]
      = Except.error ["Notes", "Stuff", "Other"] :=
  C6_missing_required_columns_fail ["Notes", "Stuff", "Other"]
    (Or.inl (by decide))

/-- One mapper step either leaves the setup target slot alone or fills
it with a column that does not mention "retailer". -/
theorem setupColsStep_target (st : SetupCols) (col : String) :
    (setupColsStep st col).targetCol = st.targetCol ∨
    ((setupColsStep st col).targetCol = some col ∧
      strHasSub (pyLower col) "retailer" = false) := by
  unfold setupColsStep
  split_ifs with h1 h2 h3 h4 h5 h6
  · right
    simp only [Bool.and_eq_true, Bool.not_eq_true'] at h1
    exact ⟨rfl, h1.2⟩
  · exact Or.inl rfl
  · exact Or.inl rfl
  · exact Or.inl rfl
  · exact Or.inl rfl
  · exact Or.inl rfl
  · exact Or.inl rfl
  · exact Or.inl rfl

/-- Fold invariant: the setup target slot never holds a column whose
lowercased name contains "retailer". -/
theorem setupCols_target_aux :
    ∀ (cols : List String) (st : SetupCols),
      (∀ c, st.targetCol = some c → strHasSub (pyLower c) "retailer" = false) →
      ∀ c, (cols.foldl setupColsStep st).targetCol = some c →
        strHasSub (pyLower c) "retailer" = false := by
  intro cols
  induction cols with
  | nil => intro st hst c hc; exact hst c hc
  | cons col rest ih =>
      intro st hst c hc
      refine ih (setupColsStep st col) ?_ c hc
      intro c2 h2
      rcases setupColsStep_target st col with h3 | ⟨h3, h4⟩
      · exact hst c2 (h3 ▸ h2)
      · rw [h3] at h2
        injection h2 with h5
        rw [← h5]
        exact h4

/-- One retailer-mapper step either leaves the retailer-target slot
alone or fills it with a column containing both "retailer" and
"target". -/
theorem retailerColsStep_target (st : RetailerCols) (col : String) :
    (retailerColsStep st col).targetCol = st.targetCol ∨
    ((retailerColsStep st col).targetCol = some col ∧
      strHasSub (pyLower col) "retailer" = true ∧
      strHasSub (pyLower col) "target" = true) := by
  unfold retailerColsStep
  split_ifs with h1 h2 h3
  · exact Or.inl rfl
  · right
    simp only [Bool.and_eq_true] at h2
    exact ⟨rfl, h2.1, h2.2⟩
  · exact Or.inl rfl
  · exact Or.inl rfl

/-- A column with both "retailer" and "target" fills the retailer-target
slot when processed. -/
theorem retailerColsStep_sets (st : RetailerCols) (col : String)
    (h1 : strHasSub (pyLower col) "retailer" = true)
    (h2 : strHasSub (pyLower col) "target" = true) :
    (retailerColsStep st col).targetCol = some col := by
  unfold retailerColsStep
  split_ifs with c1 c2
  · exfalso
    simp only [Bool.and_eq_true, Bool.not_eq_true'] at c1
    rw [c1.1.2] at h2
    exact Bool.noConfusion h2
  · rfl
  · exfalso
    exact c2 (by rw [h1, h2]; rfl)
  · exfalso
    exact c2 (by rw [h1, h2]; rfl)

/-- The retailer-target slot, once filled, never becomes empty again. -/
theorem findRetailer_target_mono :
    ∀ (cols : List String) (st : RetailerCols),
      st.targetCol ≠ none →
      (cols.foldl retailerColsStep st).targetCol ≠ none := by
  intro cols
  induction cols with
  | nil => intro st h; exact h
  | cons col rest ih =>
      intro st h
      refine ih (retailerColsStep st col) ?_
      rcases retailerColsStep_target st col with h3 | ⟨h3, _, _⟩
      · rw [h3]; exact h
      · rw [h3]; exact Option.noConfusion

/-- Fold invariant: whatever fills the retailer-target slot contains
both "retailer" and "target". -/
theorem findRetailer_target_sound :
    ∀ (cols : List String) (st : RetailerCols),
      (∀ c, st.targetCol = some c →
        strHasSub (pyLower c) "retailer" = true ∧
        strHasSub (pyLower c) "target" = true) →
      ∀ c, (cols.foldl retailerColsStep st).targetCol = some c →
        strHasSub (pyLower c) "retailer" = true ∧
        strHasSub (pyLower c) "target" = true := by
  intro cols
  induction cols with
  | nil => intro st hst c hc; exact hst c hc
  | cons col rest ih =>
      intro st hst c hc
      refine ih (retailerColsStep st col) ?_ c hc
      intro c2 h2
      rcases retailerColsStep_target st col with h3 | ⟨h3, h4, h5⟩
      · exact hst c2 (h3 ▸ h2)
      · rw [h3] at h2
        injection h2 with h6
        rw [← h6]
        exact ⟨h4, h5⟩

/-- A both-containing column anywhere in the header leaves the
retailer-target slot filled at the end. -/
theorem findRetailer_target_filled :
    ∀ (cols : List String) (st : RetailerCols) (c : String),
      c ∈ cols →
      strHasSub (pyLower c) "retailer" = true →
      strHasSub (pyLower c) "target" = true →
      (cols.foldl retailerColsStep st).targetCol ≠ none := by
  intro cols
  induction cols with
  | nil =>
      intro st c hc
      exact absurd hc (by simp)
  | cons col rest ih =>
      intro st c hc h1 h2
      rcases List.mem_cons.mp hc with h3 | h3
      · subst h3
        refine findRetailer_target_mono rest (retailerColsStep st c) ?_
        rw [retailerColsStep_sets st c h1 h2]
        exact Option.noConfusion
      · exact ih (retailerColsStep st col) c h3 h1 h2

/-- C8: the setup-sheet mapper never assigns a column mentioning
"retailer" to the generic target slot; a column containing both
"retailer" and "target" ends up classified as the retailer-target
column of the retailer sheet; and whenever a Display Name column was
found it is the column used for metric matching. -/
theorem C8_column_mapper_priorities :
    (∀ (cols : List String) (c : String),
        (findSetupCols cols).targetCol = some c →
        strHasSub (pyLower c) "retailer" = false) ∧
    (∀ (cols : List String) (c : String),
        c ∈ cols →
        strHasSub (pyLower c) "retailer" = true →
        strHasSub (pyLower c) "target" = true →
        ∃ c2, (findRetailerCols cols).targetCol = some c2 ∧
          strHasSub (pyLower c2) "retailer" = true ∧
          strHasSub (pyLower c2) "target" = true) ∧
    (∀ (cols : List String) (d : String),
        (findSetupCols cols).displayCol = some d →
        metricColFinal (findSetupCols cols) = some d) := by
  refine ⟨?_, ?_, ?_⟩
  · intro cols c hc
    exact setupCols_target_aux cols emptySetupCols
      (fun c2 h2 => Option.noConfusion h2) c hc
  · intro cols c hmem hr ht
    have hne := findRetailer_target_filled cols ⟨none, none, none⟩ c hmem hr ht
    cases h2 : (findRetailerCols cols).targetCol with
    | none => exact absurd h2 hne
    | some c2 =>
        have hsound := findRetailer_target_sound cols ⟨none, none, none⟩
          (fun c3 h3 => Option.noConfusion h3) c2 h2
        exact ⟨c2, rfl, hsound.1, hsound.2⟩
  · intro cols d hd
    unfold metricColFinal
    rw [hd]

/-- Witness for C8 on concrete header rows: the generic target slot
gets "Target" (no "retailer" inside), the retailer sheet classifies
"Retailer Target" as the retailer-target column, and "Display Name"
wins the metric-matching slot over "Metric Name". -/
theorem C8_column_mapper_witness :
    strHasSub (pyLower "Target") "retailer" = false ∧
    (∃ c2, (findRetailerCols
        ["Retailer", "Retailer Target", "Retailer Weight"]).targetCol = some c2 ∧
      strHasSub (pyLower c2) "retailer" = true ∧
      strHasSub (pyLower c2) "target" = true) ∧
    metricColFinal (findSetupCols
      ["Retailer Target", "Display Name", "Metric Name", "Metric Weight",
       "Target"]) = some "Display Name" := by
  refine ⟨?_, ?_, ?_⟩
  · exact C8_column_mapper_priorities.1
      ["Retailer Target", "Display Name", "Metric Name", "Metric Weight",
       "Target"] "Target" (by decide)
  · exact C8_column_mapper_priorities.2.1
      ["Retailer", "Retailer Target", "Retailer Weight"] "Retailer Target"
      (by decide) (by decide) (by decide)
  · exact C8_column_mapper_priorities.2.2
      ["Retailer Target", "Display Name", "Metric Name", "Metric Weight",
       "Target"] "Display Name" (by decide)

/-- The target after the default fill: 50 when blank, untouched
otherwise. -/
theorem step2Row_target (r : ExportRow) :
    (step2Row r).target = (if blankVal r.target then Cell.num 50 else r.target) := by
  unfold step2Row
  cases h1 : blankVal r.target with
  | true =>
      simp only [h1, if_true]
      cases h2 : blankVal ({ r with target := Cell.num 50 } : ExportRow).weight with
      | true => simp [h2]
      | false => simp [h2]
  | false =>
      simp only [h1, Bool.false_eq_true, if_false]
      cases h2 : blankVal r.weight with
      | true => simp [h2]
      | false => simp [h2]

/-- The weight after the default fill: 1.0 when blank, untouched
otherwise. -/
theorem step2Row_weight (r : ExportRow) :
    (step2Row r).weight = (if blankVal r.weight then Cell.num 1 else r.weight) := by
  unfold step2Row
  cases h1 : blankVal r.target with
  | true =>
      simp only [h1, if_true]
      cases h2 : blankVal r.weight with
      | true =>
          have h2a : blankVal ({ r with target := Cell.num 50 } : ExportRow).weight
              = true := h2
          simp [h2a, h2]
      | false =>
          have h2a : blankVal ({ r with target := Cell.num 50 } : ExportRow).weight
              = false := h2
          simp [h2a, h2]
  | false =>
      simp only [h1, Bool.false_eq_true, if_false]
      cases h2 : blankVal r.weight with
      | true => simp [h2]
      | false => simp [h2]

/-- C4: after the two passes, a row whose target is still blank after
the overrides ends at 50 and a row whose weight is still blank ends at
1.0, while an explicit override value of 0 survives the default fill. -/
theorem C4_default_fill_after_overrides :
    ∀ (name : String) (setup : String → Option SetupVals) (r : ExportRow),
      (blankVal (step1Row name setup r).target = true →
        (resolveRow name setup r).target = Cell.num 50) ∧
      (blankVal (step1Row name setup r).weight = true →
        (resolveRow name setup r).weight = Cell.num 1) ∧
      (∀ sv : SetupVals,
        metricMask name r = true →
        pyStrField r.measure_config ≠ "" →
        pyStrField r.measure_config ≠ "nan" →
        setup (pyLower (pyStrField r.measure_config)) = some sv →
        (sv.target = some (Cell.num 0) →
          (resolveRow name setup r).target = Cell.num 0) ∧
        (sv.weight = some (Cell.num 0) →
          (resolveRow name setup r).weight = Cell.num 0)) := by
  intro name setup r
  refine ⟨?_, ?_, ?_⟩
  · intro h
    unfold resolveRow
    rw [step2Row_target, if_pos h]
  · intro h
    unfold resolveRow
    rw [step2Row_weight, if_pos h]
  · intro sv hmask hne1 hne2 hsv
    have hstep1 : step1Row name setup r
        = { r with
            target := (match sv.target with | some t => t | none => r.target)
            weight := (match sv.weight with | some w => w | none => r.weight) } := by
      unfold step1Row
      rw [if_pos hmask, if_neg (not_or.mpr ⟨hne1, hne2⟩), hsv]
    constructor
    · intro ht
      unfold resolveRow
      rw [hstep1, step2Row_target, ht]
      simp [blankVal]
    · intro hw
      unfold resolveRow
      rw [hstep1, step2Row_weight, hw]
      simp [blankVal]

/-- Witness for C4: a row missing from the setup mapping gets the
defaults 50 and 1.0, and a row whose setup override is 0 keeps 0 in
both fields. -/
theorem C4_default_fill_witness :
    (resolveRow "SC"
      (buildSetupMapping [⟨Cell.str "M", Cell.num 0, Cell.num 0⟩])
      ⟨Cell.str "SC", Cell.blank, Cell.blank, Cell.blank, Cell.str "other",
       Cell.blank, Cell.blank⟩).target = Cell.num 50 ∧
    (resolveRow "SC"
      (buildSetupMapping [⟨Cell.str "M", Cell.num 0, Cell.num 0⟩])
      ⟨Cell.str "SC", Cell.blank, Cell.blank, Cell.blank, Cell.str "other",
       Cell.blank, Cell.blank⟩).weight = Cell.num 1 ∧
    (resolveRow "SC"
      (buildSetupMapping [⟨Cell.str "M", Cell.num 0, Cell.num 0⟩])
      ⟨Cell.str "SC", Cell.blank, Cell.blank, Cell.blank, Cell.str "M",
       Cell.blank, Cell.blank⟩).target = Cell.num 0 ∧
    (resolveRow "SC"
      (buildSetupMapping [⟨Cell.str "M", Cell.num 0, Cell.num 0⟩])
      ⟨Cell.str "SC", Cell.blank, Cell.blank, Cell.blank, Cell.str "M",
       Cell.blank, Cell.blank⟩).weight = Cell.num 0 := by
  refine ⟨?_, ?_, ?_, ?_⟩
  · exact (C4_default_fill_after_overrides "SC"
      (buildSetupMapping [⟨Cell.str "M", Cell.num 0, Cell.num 0⟩])
      ⟨Cell.str "SC", Cell.blank, Cell.blank, Cell.blank, Cell.str "other",
       Cell.blank, Cell.blank⟩).1 (by decide)
  · exact (C4_default_fill_after_overrides "SC"
      (buildSetupMapping [⟨Cell.str "M", Cell.num 0, Cell.num 0⟩])
      ⟨Cell.str "SC", Cell.blank, Cell.blank, Cell.blank, Cell.str "other",
       Cell.blank, Cell.blank⟩).2.1 (by decide)
  · exact ((C4_default_fill_after_overrides "SC"
      (buildSetupMapping [⟨Cell.str "M", Cell.num 0, Cell.num 0⟩])
      ⟨Cell.str "SC", Cell.blank, Cell.blank, Cell.blank, Cell.str "M",
       Cell.blank, Cell.blank⟩).2.2
      ⟨some (Cell.num 0), some (Cell.num 0)⟩ (by decide) (by decide) (by decide)
      (by decide)).1 (by decide)
  · exact ((C4_default_fill_after_overrides "SC"
      (buildSetupMapping [⟨Cell.str "M", Cell.num 0, Cell.num 0⟩])
      ⟨Cell.str "SC", Cell.blank, Cell.blank, Cell.blank, Cell.str "M",
       Cell.blank, Cell.blank⟩).2.2
      ⟨some (Cell.num 0), some (Cell.num 0)⟩ (by decide) (by decide) (by decide)
      (by decide)).2 (by decide)

end Scorecard
